import Mathlib

/-!
Shallow embedding of the Book2Slide repository (src/services/geminiService.ts,
src/App.tsx, src/components/Infographic.tsx) for checking its specification.

Strings are modelled at the level of Unicode code points (`List Char`); the
JavaScript string primitives used by the code (`indexOf`, `lastIndexOf`,
`substring`, `replace` with a global literal-ish pattern, `trim`) are given
as executable Lean functions on `List Char`.
-/

namespace Book2Slide

/-- The backtick character, U+0060. -/
def backtickChar : Char := Char.ofNat 96

/-- The opening curly brace character, U+007B. -/
def braceOpen : Char := Char.ofNat 123

/-- The closing curly brace character, U+007D. -/
def braceClose : Char := Char.ofNat 125

/-- JavaScript whitespace class: the characters matched by the regex class
backslash-s and removed by `String.prototype.trim` (ECMA-262 WhiteSpace and
LineTerminator). -/
def isJsWs (c : Char) : Bool :=
  c == ' ' || c == Char.ofNat 9 || c == Char.ofNat 10 || c == Char.ofNat 11 ||
  c == Char.ofNat 12 || c == Char.ofNat 13 || c == Char.ofNat 160 ||
  c == Char.ofNat 5760 || (8192 ≤ c.toNat && c.toNat ≤ 8202) ||
  c == Char.ofNat 8232 || c == Char.ofNat 8233 || c == Char.ofNat 8239 ||
  c == Char.ofNat 8287 || c == Char.ofNat 12288 || c == Char.ofNat 65279

/-- Model of `String.prototype.trim`: remove JS whitespace from both ends. -/
def jsTrim (l : List Char) : List Char :=
  ((l.dropWhile isJsWs).reverse.dropWhile isJsWs).reverse

/-- One left-to-right pass deleting every non-overlapping occurrence of `pat`,
resuming after each deleted occurrence: the effect of
`String.prototype.replace` with a global pattern and the empty replacement.
`fuel` only drives the recursion; `removePat` supplies `l.length`, which is
always enough because every step consumes at least one list element. -/
def removePatAux (pat : List Char) : Nat → List Char → List Char
  | _, [] => []
  | 0, l => l
  | fuel + 1, c :: cs =>
    if pat ≠ [] ∧ pat.isPrefixOf (c :: cs) then
      removePatAux pat fuel ((c :: cs).drop pat.length)
    else
      c :: removePatAux pat fuel cs

/-- Model of `text.replace(pat-as-global-regex, "")` for a literal pattern. -/
def removePat (pat l : List Char) : List Char :=
  removePatAux pat l.length l

end Book2Slide

namespace Book2Slide

/-- Model of `text.indexOf(c)` (as an `Option` instead of the sentinel -1):
the index of the first occurrence of the character `c`. -/
def firstIndexOf (l : List Char) (c : Char) : Option Nat :=
  l.findIdx? (· = c)

/-- Model of `text.lastIndexOf(c)` (as an `Option` instead of the sentinel
-1): the index of the last occurrence of the character `c`. -/
def lastIndexOf (l : List Char) (c : Char) : Option Nat :=
  match l.reverse.findIdx? (· = c) with
  | some i => some (l.length - 1 - i)
  | none => none

/-- The characters of the pattern of the regex in
`text.replace(/```json/g, '')`. -/
def fenceJsonPat : List Char :=
  [backtickChar, backtickChar, backtickChar, 'j', 's', 'o', 'n']

/-- The characters of the pattern of the regex in `text.replace(/```/g, '')`. -/
def fencePat : List Char := [backtickChar, backtickChar, backtickChar]

/-- The fallback branch of the JSON recovery:
`text.replace(/```json/g, '').replace(/```/g, '').trim()`. -/
def fenceFallback (text : List Char) : List Char :=
  jsTrim (removePat fencePat (removePat fenceJsonPat text))

/-- The JSON-recovery step of `generateBookInfographic`
(src/services/geminiService.ts lines 95-106): if the text has a first
brace and a last closing brace strictly after it, take
`text.substring(firstBrace, lastBrace + 1)`; otherwise strip fence markers
and trim.  The initial value `"{}"` of the mutable `cleanJson` variable is
overwritten on both branches of the `if`/`else`. -/
def cleanJsonOf (text : List Char) : List Char :=
  match firstIndexOf text braceOpen, lastIndexOf text braceClose with
  | some firstBrace, some lastBrace =>
    if lastBrace > firstBrace then
      (text.drop firstBrace).take (lastBrace + 1 - firstBrace)
    else
      fenceFallback text
  | some _, none => fenceFallback text
  | none, _ => fenceFallback text

/-- Number of positions of `l` at which the pattern `pat` occurs
(as a contiguous sublist starting at that position). -/
def occursCount (pat : List Char) : List Char → Nat
  | [] => 0
  | c :: cs => (if pat.isPrefixOf (c :: cs) then 1 else 0) + occursCount pat cs

/-- `pat` occurs somewhere in `l` as a contiguous sublist. -/
def containsSub (pat l : List Char) : Prop :=
  ∃ s u, l = s ++ pat ++ u

end Book2Slide
namespace Book2Slide

/-- The fixed text of the prompt template literal before the interpolated title. -/
def promptPrefix : String :=
  "
  Act as a world-class literary critic and expert analyst. I need a deep, high-level analysis of the book \""

/-- The fixed text of the prompt template literal between the interpolated title and author. -/
def promptMid : String := "\" by \""

/-- The fixed text of the prompt template literal after the interpolated author. -/
def promptSuffix : String :=
  "\", suitable for a professional lecture or slide deck.
  
  OBJECTIVE:
  Do NOT provide a generic, surface-level summary. Your output must match the depth of a university-level study guide. 
  You must identify the author\x27s specific coined terms, their central philosophical or narrative thesis, and the structural evolution of their argument.

  TOOLS:
  Use Google Search to find high-quality critiques, academic analyses, and the specific vocabulary used by the author.

  JSON STRUCTURE & CONTENT REQUIREMENTS:
  1. \"summary\" (THE CENTRAL THESIS):
     - For Non-Fiction: What is the core paradigm shift or theory proposed? (e.g., \"From discipline to flexibility,\" \"The end of history\").
     - For Fiction: What is the central thematic conflict or philosophical question?
     - Length: A substantial, analytical paragraph (approx 130-160 words).
  
  2. \"keyConcepts\" (DISTINCTIVE TERMINOLOGY):
     - Identify 4 specific concepts, archetypes, or terms COINED or heavily used by the author (e.g., \"The Third Woman,\" \"Antifragility,\" \"Doublethink,\" \"Liquid Modernity\").
     - Avoid generic words like \"Love\" or \"War\" unless defined in a unique way.
     - Definition: Explain the specific nuance of the term in the context of the book.

  3. \"plotArc\" (STRUCTURAL EVOLUTION):
     - For Non-Fiction: Track the logical progression of the argument (Premise -> Evidence -> Counter-point -> Conclusion).
     - For Fiction: Track the narrative arc.
  
  4. \"takeaways\" (CRITICAL CONCLUSION):
     - What is the final diagnosis? Is it optimistic, pessimistic, or neutral?
     - What is the \"Call to Action\" or the \"Map\" the author provides?

  OUTPUT FORMAT:
  Return ONLY a valid JSON object with this exact structure:
  \x7b
    \"title\": \"Exact Book Title\",
    \"author\": \"Author Name\",
    \"publicationYear\": \"YYYY\",
    \"genre\": \"Specific Genre (e.g., \x27Sociological Essay\x27, \x27Dystopian Fiction\x27)\",
    \"tagline\": \"A sophisticated, intellectual hook (5-10 words)\",
    \"summary\": \"The deep analysis/central thesis paragraph.\",
    \"targetAudience\": \"Specific psychographic (e.g. \x27Post-structuralists\x27, \x27Entrepreneurs\x27, \x27Historians\x27)\",
    \"characters\": [
      \x7b \"name\": \"Name/Archetype\", \"role\": \"Role\", \"description\": \"Analysis of their function\", \"icon\": \"👤\" \x7d
    ],
    \"keyConcepts\": [
      \x7b \"term\": \"Specific Term 1\", \"definition\": \"Deep definition...\", \"icon\": \"💡\" \x7d,
      \x7b \"term\": \"Specific Term 2\", \"definition\": \"Deep definition...\", \"icon\": \"⚡\" \x7d,
      \x7b \"term\": \"Specific Term 3\", \"definition\": \"Deep definition...\", \"icon\": \"🧠\" \x7d,
      \x7b \"term\": \"Specific Term 4\", \"definition\": \"Deep definition...\", \"icon\": \"👁️\" \x7d
    ],
    \"plotArc\": [
      \x7b \"stage\": \"Foundation/Beginning\", \"description\": \"The starting premise or situation.\" \x7d,
      \x7b \"stage\": \"Development/Inciting\", \"description\": \"The complication or expansion of the argument.\" \x7d,
      \x7b \"stage\": \"Climax/Crux\", \"description\": \"The peak of the argument or conflict.\" \x7d,
      \x7b \"stage\": \"Resolution/Synthesis\", \"description\": \"The final synthesis or conclusion.\" \x7d
    ],
    \"themes\": [
      \x7b \"name\": \"Theme Name\", \"description\": \"Explanation\", \"color\": \"#FF5733\" \x7d
    ],
    \"keyQuote\": \"The most famous or representative quote from the text.\",
    \"takeaways\": [
      \"Critical Insight 1\",
      \"Critical Insight 2\",
      \"Critical Insight 3\"
    ]
  \x7d
  "

/-- The prompt string built by generateBookInfographic: the template literal
with the title and author interpolated into their two slots. -/
def prompt (title author : String) : String :=
  promptPrefix ++ title ++ promptMid ++ author ++ promptSuffix

end Book2Slide

namespace Book2Slide

/-- A JSON value, the result of deserialization. -/
inductive Json where
  | null : Json
  | bool : Bool → Json
  | num : Int → Json
  | str : String → Json
  | arr : List Json → Json
  | obj : List (String × Json) → Json

/-- A deserialized JSON object, as its ordered field list.  The call site
ascribes the result of `JSON.parse` the object type `BookInfographicData`,
so the deserializer is modelled as producing an object's fields (or a
parse error). -/
abbrev JsonObj := List (String × Json)

/-- Reading a property of a JavaScript object: the value of the first field
named `k`, if any (`undefined` is `none`). -/
def getField (o : JsonObj) (k : String) : Option Json :=
  (List.find? (fun p => p.1 = k) o).map (fun p => p.2)

/-- Writing a property of a JavaScript object (`o[k] = v`): overwrite the
field in place when present, otherwise append it. -/
def setField (o : JsonObj) (k : String) (v : Json) : JsonObj :=
  if List.any o (fun p => p.1 = k) then
    List.map (fun p => if p.1 = k then (k, v) else p) o
  else
    o ++ [(k, v)]

/-- `response.candidates[i].groundingMetadata.groundingChunks[j].web`
field shape. -/
structure Web where
  uri : Option String
deriving DecidableEq

/-- One grounding chunk of the API response. -/
structure GroundingChunk where
  web : Option Web
deriving DecidableEq

/-- `groundingMetadata` of a response candidate. -/
structure GroundingMetadata where
  groundingChunks : Option (List GroundingChunk)
deriving DecidableEq

/-- One candidate of the API response. -/
structure Candidate where
  groundingMetadata : Option GroundingMetadata
deriving DecidableEq

/-- The parts of the generative API response the code reads: `response.text`
(possibly absent) and `response.candidates` (possibly absent). -/
structure ApiResponse where
  text : Option String
  candidates : Option (List Candidate)
deriving DecidableEq

/-- `response.candidates?.[0]?.groundingMetadata?.groundingChunks || []`:
the optional chain collapses to the empty list when any link is absent. -/
def groundingsOf (response : ApiResponse) : List GroundingChunk :=
  (((response.candidates.bind List.head?).bind
      Candidate.groundingMetadata).bind
      GroundingMetadata.groundingChunks).getD []

/-- `groundings.map(chunk => chunk.web?.uri).filter(uri => !!uri)`:
the chunk URIs in order, dropping entries whose `web?.uri` is absent or is
the empty string (both are falsy in JavaScript). -/
def sourcesOf (response : ApiResponse) : List String :=
  ((groundingsOf response).map (fun chunk => chunk.web.bind Web.uri)).filterMap
    (fun uri => match uri with
      | some u => if u.isEmpty then none else some u
      | none => none)

/-- `const text = response.text || "{}"`: an absent or empty response text
is replaced by the literal two-character string of an open and a close
brace. -/
def effectiveText (response : ApiResponse) : String :=
  match response.text with
  | none => "\x7b\x7d"
  | some s => if s.isEmpty then "\x7b\x7d" else s

/-- The fixed message of the error thrown by the `catch` block of
`generateBookInfographic`. -/
def genericFailureMessage : String :=
  "Failed to generate deep analysis. Please check the title/author and try again."

/-- Model of `generateBookInfographic` (src/services/geminiService.ts lines
6-118).  The two effectful external calls are passed in as functions:
`apiCall` is `ai.models.generateContent` reduced to its outcome on a given
prompt (an error or an `ApiResponse`), and `jsonParse` is `JSON.parse`
reduced to its outcome on a given string.  Any error from either call is
caught by the surrounding `try`/`catch` and replaced by the fixed failure
message; on success the grounding sources overwrite the `sources` field of
the parsed object. -/
def generateBookInfographic (apiCall : String → Except String ApiResponse)
    (jsonParse : String → Except String JsonObj)
    (title author : String) : Except String JsonObj :=
  match apiCall (prompt title author) with
  | .error _ => .error genericFailureMessage
  | .ok response =>
    let sources := sourcesOf response
    let cleanJson := cleanJsonOf (effectiveText response).data
    match jsonParse (String.mk cleanJson) with
    | .error _ => .error genericFailureMessage
    | .ok data => .ok (setField data "sources" (Json.arr (sources.map Json.str)))

/-- The four values of the `step` state cell of `App`. -/
inductive Step where
  | input : Step
  | loading : Step
  | result : Step
  | error : Step
deriving DecidableEq

/-- The state cells of the `App` component: `step`, `inputs.title`,
`inputs.author`, `data`, `errorMsg`. -/
structure AppState where
  step : Step
  title : String
  author : String
  data : Option JsonObj
  errorMsg : String

/-- The local validation message set by `handleConfirm` when a field is
empty. -/
def validationMessage : String :=
  "Please enter both the book title and the author."

/-- Model of `handleConfirm` (src/App.tsx lines 17-34), run to completion:
the returned pair is the final state and whether `generateBookInfographic`
was invoked.  `genResult` is the outcome of the (single) generation call,
reduced to the thrown error message or the resulting document.  An empty
title or author (falsy in JavaScript) short-circuits before the network
call, setting only the validation message. -/
def handleConfirm (genResult : Except String JsonObj) (s : AppState) :
    AppState × Bool :=
  if s.title = "" ∨ s.author = "" then
    ({ s with errorMsg := validationMessage }, false)
  else
    match genResult with
    | .ok d => ({ s with step := Step.result, errorMsg := "", data := some d }, true)
    | .error m => ({ s with step := Step.error, errorMsg := m }, true)

/-- Model of the Try Again button of the error screen (src/App.tsx line
138): `onClick = () => setStep('input')`. -/
def tryAgainClick (s : AppState) : AppState :=
  { s with step := Step.input }

/-- Scanner equivalent of `title.replace(/\s+/g, '_')`: `prevWs` records
whether the previous character was part of a whitespace run already
replaced by an underscore. -/
def collapseGo (prevWs : Bool) : List Char → List Char
  | [] => []
  | c :: cs =>
    if isJsWs c then
      if prevWs then collapseGo true cs else '_' :: collapseGo true cs
    else
      c :: collapseGo false cs

/-- `title.replace(/\s+/g, '_')`: every maximal whitespace run becomes one
underscore. -/
def collapseWs (l : List Char) : List Char :=
  collapseGo false l

/-- The filename passed to `pdf.save` by `handleDownloadPdf`
(src/components/Infographic.tsx line 203). -/
def pdfFilename (title : String) : String :=
  String.mk (collapseWs title.data) ++ "_Presentation.pdf"

/-- Replacement of every maximal whitespace run by a single underscore,
stated as a relation following the specification text: a non-whitespace
character is kept, and a non-empty all-whitespace run followed by a
non-whitespace character (or the end) becomes one underscore. -/
inductive Collapses : List Char → List Char → Prop where
  | nil : Collapses [] []
  | consKeep {c : Char} {l r : List Char} :
      isJsWs c = false → Collapses l r → Collapses (c :: l) (c :: r)
  | consRun {run l r : List Char} :
      run ≠ [] → (∀ c ∈ run, isJsWs c = true) →
      (∀ d ds, l = d :: ds → isJsWs d = false) →
      Collapses l r → Collapses (run ++ l) ('_' :: r)

end Book2Slide

namespace Book2Slide

theorem data_append (s t : String) : (s ++ t).data = s.data ++ t.data := by
  cases s; cases t; rfl

theorem findIdx?_eq_none_of_not_mem {c : Char} {l : List Char} (h : c ∉ l) :
    l.findIdx? (· = c) = none := by
  induction l with
  | nil => rfl
  | cons a as ih =>
    rw [List.findIdx?_cons]
    have ha : ¬ (a = c) := fun hac => h (hac ▸ List.mem_cons_self a as)
    simp only [ha, decide_False, decide_eq_true_eq, if_false, cond_false]
    have := ih (fun hm => h (List.mem_cons_of_mem a hm))
    simp [this]

theorem isPrefixOf_append_left {p q l : List Char}
    (h : (p ++ q).isPrefixOf l = true) : p.isPrefixOf l = true := by
  induction p generalizing l with
  | nil => simp [List.isPrefixOf]
  | cons a as ih =>
    cases l with
    | nil => simp [List.isPrefixOf] at h
    | cons b bs =>
      simp only [List.cons_append, List.isPrefixOf, Bool.and_eq_true] at h ⊢
      exact ⟨h.1, ih h.2⟩

theorem isPrefixOf_append_extend {p l t : List Char}
    (h : p.isPrefixOf l = true) : p.isPrefixOf (l ++ t) = true := by
  induction p generalizing l with
  | nil => simp [List.isPrefixOf]
  | cons a as ih =>
    cases l with
    | nil => simp [List.isPrefixOf] at h
    | cons b bs =>
      simp only [List.cons_append, List.isPrefixOf, Bool.and_eq_true] at h ⊢
      exact ⟨h.1, ih h.2⟩

theorem isPrefixOf_self_append (l t : List Char) :
    l.isPrefixOf (l ++ t) = true := by
  induction l with
  | nil => simp [List.isPrefixOf]
  | cons a as ih => simp [List.isPrefixOf, ih]

theorem occursCount_cons_eq_zero {pat : List Char} {c : Char} {cs : List Char}
    (h : occursCount pat (c :: cs) = 0) :
    pat.isPrefixOf (c :: cs) = false ∧ occursCount pat cs = 0 := by
  rw [occursCount] at h
  rcases hp : pat.isPrefixOf (c :: cs) with _ | _
  · simpa [hp] using h
  · simp [hp] at h

theorem removePatAux_of_occursCount_zero {pat : List Char} (fuel : Nat)
    {l : List Char} (h : occursCount pat l = 0) :
    removePatAux pat fuel l = l := by
  induction fuel generalizing l with
  | zero => cases l <;> rfl
  | succ fuel ih =>
    cases l with
    | nil => rfl
    | cons c cs =>
      obtain ⟨hp, hcs⟩ := occursCount_cons_eq_zero h
      rw [removePatAux, if_neg (fun hc => by simp [hp] at hc), ih hcs]

theorem removePat_of_occursCount_zero {pat l : List Char}
    (h : occursCount pat l = 0) : removePat pat l = l :=
  removePatAux_of_occursCount_zero l.length h

theorem occursCount_fenceJson_eq_zero {l : List Char}
    (h : occursCount fencePat l = 0) : occursCount fenceJsonPat l = 0 := by
  induction l with
  | nil => rfl
  | cons c cs ih =>
    obtain ⟨hp, hcs⟩ := occursCount_cons_eq_zero h
    rw [occursCount]
    rcases hj : fenceJsonPat.isPrefixOf (c :: cs) with _ | _
    · simpa using ih hcs
    · have : fencePat.isPrefixOf (c :: cs) = true :=
        isPrefixOf_append_left (p := fencePat) (q := ['j', 's', 'o', 'n']) hj
      rw [this] at hp
      exact absurd hp (by simp)

theorem occursCount_append_ge (pat x y : List Char) :
    occursCount pat x + occursCount pat y ≤ occursCount pat (x ++ y) := by
  induction x with
  | nil => simp [occursCount]
  | cons c cs ih =>
    rw [List.cons_append, occursCount, occursCount]
    rcases hp : pat.isPrefixOf (c :: cs) with _ | _
    · simp only [hp, if_false, Bool.false_eq_true]
      omega
    · have hy : pat.isPrefixOf (c :: (cs ++ y)) = true := by
        have := isPrefixOf_append_extend (t := y) hp
        rwa [List.cons_append] at this
      simp only [hy, if_true]
      omega

theorem occursCount_self_append {pat : List Char} (r : List Char)
    (h : pat ≠ []) : 1 ≤ occursCount pat (pat ++ r) := by
  cases pat with
  | nil => exact absurd rfl h
  | cons p ps =>
    have hp : (p :: ps).isPrefixOf ((p :: ps) ++ r) = true :=
      isPrefixOf_self_append (p :: ps) r
    rw [List.cons_append, occursCount]
    rw [List.cons_append] at hp
    simp only [hp, if_true]
    omega

end Book2Slide

namespace Book2Slide

theorem find?_map_overwrite {k : String} {v : Json} (o : JsonObj)
    (h : List.any o (fun p => p.1 = k) = true) :
    List.find? (fun p => p.1 = k)
      (List.map (fun p => if p.1 = k then (k, v) else p) o) = some (k, v) := by
  induction o with
  | nil => simp at h
  | cons q qs ih =>
    rcases hq : decide (q.1 = k) with _ | _
    · have hq' : ¬ (q.1 = k) := of_decide_eq_false hq
      have hqs : List.any qs (fun p => p.1 = k) = true := by
        simpa [List.any_cons, hq'] using h
      simp only [List.map_cons, if_neg hq']
      rw [List.find?_cons_of_neg _ (by simpa using hq')]
      exact ih hqs
    · have hq' : q.1 = k := of_decide_eq_true hq
      simp only [List.map_cons, if_pos hq']
      rw [List.find?_cons_of_pos _ (by simp)]

theorem getField_setField (o : JsonObj) (k : String) (v : Json) :
    getField (setField o k v) k = some v := by
  unfold getField setField
  rcases ha : List.any o (fun p => p.1 = k) with _ | _
  · simp only [Bool.false_eq_true, if_false]
    have hnone : List.find? (fun p => p.1 = k) o = none := by
      rw [List.find?_eq_none]
      intro p hp hpk
      have : List.any o (fun q => q.1 = k) = true :=
        List.any_of_mem hp hpk
      simp [ha] at this
    rw [List.find?_append, hnone]
    simp
  · simp only [if_true]
    rw [find?_map_overwrite o ha]
    rfl

theorem length_dropWhile_le (p : Char → Bool) (l : List Char) :
    (l.dropWhile p).length ≤ l.length := by
  induction l with
  | nil => simp
  | cons c cs ih =>
    rw [List.dropWhile_cons]
    rcases hc : p c with _ | _
    · simp
    · simp only [if_true]
      exact Nat.le_trans ih (Nat.le_succ _)

theorem dropWhile_head_false {p : Char → Bool} {l : List Char} {d : Char}
    {ds : List Char} (h : l.dropWhile p = d :: ds) : p d = false := by
  induction l with
  | nil => simp at h
  | cons c cs ih =>
    rw [List.dropWhile_cons] at h
    rcases hc : p c with _ | _
    · rw [hc] at h
      simp at h
      rw [← h.1, hc]
    · rw [hc] at h
      simp at h
      exact ih h

theorem mem_takeWhile_true {p : Char → Bool} {l : List Char} {a : Char}
    (h : a ∈ l.takeWhile p) : p a = true := by
  induction l with
  | nil => simp at h
  | cons c cs ih =>
    rw [List.takeWhile_cons] at h
    rcases hc : p c with _ | _
    · rw [hc] at h
      simp at h
    · rw [hc] at h
      simp only [if_true] at h
      rcases List.mem_cons.mp h with h1 | h2
      · rw [h1, hc]
      · exact ih h2

theorem collapseGo_true_of_ws_run {run : List Char}
    (hws : ∀ c ∈ run, isJsWs c = true) (rest : List Char) :
    collapseGo true (run ++ rest) = collapseGo true rest := by
  induction run with
  | nil => rfl
  | cons c cs ih =>
    rw [List.cons_append, collapseGo,
      if_pos (hws c (List.mem_cons_self c cs)), if_pos rfl]
    exact ih (fun d hd => hws d (List.mem_cons_of_mem c hd))

theorem collapseGo_true_eq_false {rest : List Char}
    (h : ∀ d ds, rest = d :: ds → isJsWs d = false) :
    collapseGo true rest = collapseGo false rest := by
  cases rest with
  | nil => rfl
  | cons d ds =>
    have hd := h d ds rfl
    rw [collapseGo, collapseGo, if_neg (by simp [hd]), if_neg (by simp [hd])]

end Book2Slide

namespace Book2Slide

theorem collapseWs_cons_not_ws {c : Char} {cs : List Char}
    (hc : isJsWs c = false) : collapseWs (c :: cs) = c :: collapseWs cs := by
  unfold collapseWs
  rw [collapseGo, if_neg (by simp [hc])]

theorem collapseWs_cons_ws {c : Char} {cs : List Char}
    (hc : isJsWs c = true) :
    collapseWs (c :: cs) = '_' :: collapseGo false (cs.dropWhile isJsWs) := by
  unfold collapseWs
  rw [collapseGo, if_pos hc, if_neg (by simp)]
  congr 1
  have hsplit : cs.takeWhile isJsWs ++ cs.dropWhile isJsWs = cs :=
    List.takeWhile_append_dropWhile isJsWs cs
  calc collapseGo true cs
      = collapseGo true (cs.takeWhile isJsWs ++ cs.dropWhile isJsWs) := by
        rw [hsplit]
    _ = collapseGo true (cs.dropWhile isJsWs) :=
        collapseGo_true_of_ws_run (fun d hd => mem_takeWhile_true hd) _
    _ = collapseGo false (cs.dropWhile isJsWs) :=
        collapseGo_true_eq_false (fun d ds hds => dropWhile_head_false hds)

theorem collapses_collapseWs_bounded (n : Nat) :
    ∀ l : List Char, l.length ≤ n → Collapses l (collapseWs l) := by
  induction n with
  | zero =>
    intro l hl
    rw [List.length_eq_zero.mp (Nat.le_zero.mp hl)]
    exact Collapses.nil
  | succ n ih =>
    intro l hl
    cases l with
    | nil => exact Collapses.nil
    | cons c cs =>
      have hcs : cs.length ≤ n := by
        simp only [List.length_cons] at hl
        omega
      rcases hc : isJsWs c with _ | _
      · rw [collapseWs_cons_not_ws hc]
        exact Collapses.consKeep hc (ih cs hcs)
      · rw [collapseWs_cons_ws hc]
        have hsplit : (c :: cs.takeWhile isJsWs) ++ cs.dropWhile isJsWs
            = c :: cs := by
          rw [List.cons_append, List.takeWhile_append_dropWhile isJsWs cs]
        have hrest : Collapses (cs.dropWhile isJsWs)
            (collapseGo false (cs.dropWhile isJsWs)) :=
          ih (cs.dropWhile isJsWs)
            (Nat.le_trans (length_dropWhile_le isJsWs cs) hcs)
        rw [← hsplit]
        exact Collapses.consRun (by simp)
          (fun d hd => by
            rcases List.mem_cons.mp hd with h1 | h2
            · rw [h1]; exact hc
            · exact mem_takeWhile_true h2)
          (fun d ds hds => dropWhile_head_false hds)
          hrest

theorem collapses_collapseWs (l : List Char) : Collapses l (collapseWs l) :=
  collapses_collapseWs_bounded l.length l (Nat.le_refl _)

theorem collapses_unique {l r : List Char} (h : Collapses l r) :
    r = collapseWs l := by
  induction h with
  | nil => rfl
  | consKeep hc _ ih =>
    rw [collapseWs_cons_not_ws hc, ih]
  | consRun hne hws hmax _ ih =>
    rename_i run rest r' _
    cases run with
    | nil => exact absurd rfl hne
    | cons rc rs =>
      have hrc : isJsWs rc = true := hws rc (List.mem_cons_self rc rs)
      rw [List.cons_append, collapseWs_cons_ws hrc]
      have hdrop : (rs ++ rest).dropWhile isJsWs = rest := by
        rw [List.dropWhile_append]
        have hrs : rs.dropWhile isJsWs = [] := by
          rw [List.dropWhile_eq_nil_iff]
          intro d hd
          simp [hws d (List.mem_cons_of_mem rc hd)]
        rw [hrs]
        simp only [List.isEmpty_nil, if_true]
        cases rest with
        | nil => rfl
        | cons d ds =>
          rw [List.dropWhile_cons, if_neg (by simp [hmax d ds rfl])]
      rw [hdrop, ih]
      rfl

end Book2Slide

namespace Book2Slide

/-- A grounding chunk carries a usable URI: `web?.uri` is present and
non-empty (JavaScript truthiness of the string). -/
def chunkHasUri (c : GroundingChunk) : Bool :=
  match c.web.bind Web.uri with
  | some u => !u.isEmpty
  | none => false

/-- The URI carried by a grounding chunk (empty when absent). -/
def chunkUriValue (c : GroundingChunk) : String :=
  (c.web.bind Web.uri).getD ""

theorem filterMap_uri_eq (l : List GroundingChunk) :
    (l.map (fun chunk => chunk.web.bind Web.uri)).filterMap
      (fun uri => match uri with
        | some u => if u.isEmpty then none else some u
        | none => none)
    = (l.filter chunkHasUri).map chunkUriValue := by
  induction l with
  | nil => rfl
  | cons c cs ih =>
    rcases hw : c.web.bind Web.uri with _ | u
    · simp [List.filterMap_cons, List.filter_cons, chunkHasUri, hw, ih]
    · rcases he : u.isEmpty with _ | _
      · simp [List.filterMap_cons, List.filter_cons, chunkHasUri,
          chunkUriValue, hw, he, ih]
      · simp [List.filterMap_cons, List.filter_cons, chunkHasUri,
          chunkUriValue, hw, he, ih]

/-- The code's map-then-filter over chunk URIs equals the specification's
filter-then-map: the URIs, in chunk order, of the chunks that carry one. -/
theorem sourcesOf_eq_filter_map (response : ApiResponse) :
    sourcesOf response =
      ((groundingsOf response).filter chunkHasUri).map chunkUriValue := by
  unfold sourcesOf
  exact filterMap_uri_eq _

end Book2Slide

namespace Book2Slide

/-- C1: for every response text with a first open brace at `firstBrace` and a
last close brace at `lastBrace > firstBrace`, the JSON-recovery step of
`generateBookInfographic` takes exactly `text.substring(firstBrace,
lastBrace + 1)` — the substring from the first open brace through the last
close brace inclusive — as the JSON candidate, regardless of any
triple-backtick fence markers in the text (the fence-stripping fallback is
not consulted). -/
theorem claim_C1_brace_span_rule (text : List Char) (firstBrace lastBrace : Nat)
    (h1 : firstIndexOf text braceOpen = some firstBrace)
    (h2 : lastIndexOf text braceClose = some lastBrace)
    (h3 : firstBrace < lastBrace) :
    cleanJsonOf text = (text.drop firstBrace).take (lastBrace + 1 - firstBrace) := by
  unfold cleanJsonOf
  rw [h1, h2]
  exact if_pos h3

theorem claim_C1_brace_span_rule_witness :
    firstIndexOf ("```json\n\x7b\"a\":1\x7d\n```".data) braceOpen = some 8 ∧
    lastIndexOf ("```json\n\x7b\"a\":1\x7d\n```".data) braceClose = some 14 ∧
    8 < 14 ∧
    cleanJsonOf ("```json\n\x7b\"a\":1\x7d\n```".data) =
      (("```json\n\x7b\"a\":1\x7d\n```".data).drop 8).take (14 + 1 - 8) ∧
    cleanJsonOf ("```json\n\x7b\"a\":1\x7d\n```".data) = "\x7b\"a\":1\x7d".data :=
  ⟨by decide, by decide, by decide,
    claim_C1_brace_span_rule _ 8 14 (by decide) (by decide) (by decide),
    by decide⟩

/-- C2 as written is false: when the text has no braces and no fence
markers, the JSON candidate is not the literal pair of braces — the
`else` branch overwrites the initialiser with the fence-stripped, trimmed
raw text.  Concretely, for the text `hello` (no braces, no fences) the
candidate is `hello` itself, not the empty-object literal. -/
theorem claim_C2_counterexample :
    braceOpen ∉ "hello".data ∧ braceClose ∉ "hello".data ∧
    occursCount fencePat "hello".data = 0 ∧
    cleanJsonOf "hello".data = "hello".data ∧
    cleanJsonOf "hello".data ≠ "\x7b\x7d".data :=
  ⟨by decide, by decide, by decide, by decide, by decide⟩

/-- C2 amended: for every response text containing no open brace, no close
brace and no triple-backtick run, the JSON-recovery step of
`generateBookInfographic` uses the raw text itself, trimmed of surrounding
whitespace, as its JSON candidate (the literal empty-object initialiser is
unconditionally overwritten), so recovery attempts to parse the raw
text. -/
theorem claim_C2_fallback_is_trimmed_text (text : List Char)
    (h1 : braceOpen ∉ text) (h2 : braceClose ∉ text)
    (h3 : occursCount fencePat text = 0) :
    cleanJsonOf text = jsTrim text := by
  have hf : firstIndexOf text braceOpen = none := findIdx?_eq_none_of_not_mem h1
  rcases hl : lastIndexOf text braceClose with _ | lb
  · unfold cleanJsonOf
    rw [hf, hl]
    unfold fenceFallback
    rw [removePat_of_occursCount_zero (occursCount_fenceJson_eq_zero h3),
      removePat_of_occursCount_zero h3]
  · unfold cleanJsonOf
    rw [hf, hl]
    unfold fenceFallback
    rw [removePat_of_occursCount_zero (occursCount_fenceJson_eq_zero h3),
      removePat_of_occursCount_zero h3]

theorem claim_C2_fallback_witness :
    braceOpen ∉ "hi there".data ∧ braceClose ∉ "hi there".data ∧
    occursCount fencePat "hi there".data = 0 ∧
    cleanJsonOf "hi there".data = jsTrim "hi there".data :=
  ⟨by decide, by decide, by decide,
    claim_C2_fallback_is_trimmed_text _ (by decide) (by decide) (by decide)⟩

set_option maxRecDepth 8000 in
/-- C5 as written is false: the title and author are interpolated once each
into their slots, but nothing prevents them from also occurring inside the
fixed template text, so they need not occur exactly once in the whole
prompt.  For title `a` and author `b`, the single character `a` occurs far
more than once in the prompt (the template itself contains many `a`s). -/
theorem claim_C5_counterexample :
    occursCount ("a".data) ((prompt "a" "b").data) ≠ 1 := by
  have hsplit : (prompt "a" "b").data
      = promptPrefix.data ++ ("a".data ++ (promptMid.data ++
          ("b".data ++ promptSuffix.data))) := by
    simp [prompt, data_append, List.append_assoc]
  have h1 : 1 ≤ occursCount ("a".data) promptPrefix.data := by decide
  have h2 : 1 ≤ occursCount ("a".data)
      ("a".data ++ (promptMid.data ++ ("b".data ++ promptSuffix.data))) :=
    occursCount_self_append _ (by decide)
  have h3 := occursCount_append_ge ("a".data) promptPrefix.data
    ("a".data ++ (promptMid.data ++ ("b".data ++ promptSuffix.data)))
  rw [hsplit]
  omega

/-- C5 amended: for every title/author pair the prompt built by
`generateBookInfographic` contains the literal title and the literal
author verbatim, each interpolated into its designated slot of the fixed
template (the exactly-once count over the whole prompt does not hold in
general, since the inputs may also occur in the template text). -/
theorem claim_C5_prompt_contains_verbatim (title author : String) :
    containsSub title.data (prompt title author).data ∧
    containsSub author.data (prompt title author).data := by
  constructor
  · refine ⟨promptPrefix.data,
      (promptMid ++ author ++ promptSuffix).data, ?_⟩
    simp [prompt, data_append, List.append_assoc]
  · refine ⟨(promptPrefix ++ title ++ promptMid).data, promptSuffix.data, ?_⟩
    simp [prompt, data_append, List.append_assoc]

/-- C6 as written is false: the Try Again button's handler is only
`setStep('input')`; it does not clear the error message.  Starting from an
error state with message `boom`, the message is still `boom` after the
retry action. -/
theorem claim_C6_counterexample :
    (tryAgainClick ⟨Step.error, "Dune", "Herbert", none, "boom"⟩).errorMsg
      = "boom" ∧
    (tryAgainClick ⟨Step.error, "Dune", "Herbert", none, "boom"⟩).errorMsg
      ≠ "" :=
  ⟨rfl, by decide⟩

/-- C6 amended: the retry action from the error state transitions the view
state to `input` and changes nothing else: the title and author inputs,
the stored document, and also the error message are all left unchanged
(the message is preserved, not cleared). -/
theorem claim_C6_retry_only_changes_step (s : AppState) :
    tryAgainClick s = { s with step := Step.input } ∧
    (tryAgainClick s).step = Step.input ∧
    (tryAgainClick s).title = s.title ∧
    (tryAgainClick s).author = s.author ∧
    (tryAgainClick s).data = s.data ∧
    (tryAgainClick s).errorMsg = s.errorMsg :=
  ⟨rfl, rfl, rfl, rfl, rfl, rfl⟩

/-- C7: submitting with an empty title or empty author sets only the local
validation message: `generateBookInfographic` is not invoked (the returned
flag is `false`), and the view state is unchanged, so it remains `input`. -/
theorem claim_C7_empty_input_no_network (genResult : Except String JsonObj)
    (s : AppState) (hstep : s.step = Step.input)
    (h : s.title = "" ∨ s.author = "") :
    handleConfirm genResult s = ({ s with errorMsg := validationMessage }, false) ∧
    (handleConfirm genResult s).1.step = Step.input ∧
    (handleConfirm genResult s).2 = false := by
  have heq : handleConfirm genResult s
      = ({ s with errorMsg := validationMessage }, false) := by
    unfold handleConfirm
    rw [if_pos h]
  exact ⟨heq, by rw [heq]; exact hstep, by rw [heq]⟩

theorem claim_C7_empty_input_witness :
    (⟨Step.input, "", "Herbert", none, ""⟩ : AppState).step = Step.input ∧
    ((⟨Step.input, "", "Herbert", none, ""⟩ : AppState).title = "" ∨
      (⟨Step.input, "", "Herbert", none, ""⟩ : AppState).author = "") ∧
    handleConfirm (.error "network down") ⟨Step.input, "", "Herbert", none, ""⟩
      = (⟨Step.input, "", "Herbert", none, validationMessage⟩, false) :=
  ⟨rfl, Or.inl rfl,
    (claim_C7_empty_input_no_network (.error "network down")
      ⟨Step.input, "", "Herbert", none, ""⟩ rfl (Or.inl rfl)).1⟩

end Book2Slide

namespace Book2Slide

/-- C3: on every successful run (API call returns a response and the
recovered candidate deserializes), the returned document's `sources` field
is exactly the ordered list of `web.uri` values of the response's
grounding chunks with the chunks lacking a (truthy) URI removed, written
over whatever `sources` the parsed JSON itself contained; equivalently,
the code's map-then-filter equals filtering the chunks that carry a URI
and mapping out their URIs, in original order. -/
theorem claim_C3_sources_overwrite
    (apiCall : String → Except String ApiResponse)
    (jsonParse : String → Except String JsonObj) (title author : String)
    (response : ApiResponse) (data : JsonObj)
    (hr : apiCall (prompt title author) = .ok response)
    (hp : jsonParse (String.mk (cleanJsonOf (effectiveText response).data))
      = .ok data) :
    generateBookInfographic apiCall jsonParse title author =
      .ok (setField data "sources"
        (Json.arr ((sourcesOf response).map Json.str))) ∧
    getField (setField data "sources"
        (Json.arr ((sourcesOf response).map Json.str))) "sources" =
      some (Json.arr ((sourcesOf response).map Json.str)) ∧
    sourcesOf response =
      ((groundingsOf response).filter chunkHasUri).map chunkUriValue := by
  refine ⟨?_, getField_setField data _ _, sourcesOf_eq_filter_map response⟩
  simp [generateBookInfographic, hr, hp]

theorem claim_C3_sources_overwrite_witness :
    ((fun _ => .ok (⟨none, some [⟨some ⟨some [⟨some ⟨some "https://a.example"⟩⟩,
        ⟨some ⟨none⟩⟩, ⟨some ⟨some "https://b.example"⟩⟩]⟩⟩]⟩ : ApiResponse)) :
      String → Except String ApiResponse) (prompt "T" "A")
      = .ok ⟨none, some [⟨some ⟨some [⟨some ⟨some "https://a.example"⟩⟩,
        ⟨some ⟨none⟩⟩, ⟨some ⟨some "https://b.example"⟩⟩]⟩⟩]⟩ ∧
    generateBookInfographic
      (fun _ => .ok ⟨none, some [⟨some ⟨some [⟨some ⟨some "https://a.example"⟩⟩,
        ⟨some ⟨none⟩⟩, ⟨some ⟨some "https://b.example"⟩⟩]⟩⟩]⟩)
      (fun _ => .ok [("sources", Json.str "model-made")]) "T" "A"
      = .ok [("sources", Json.arr [Json.str "https://a.example",
          Json.str "https://b.example"])] :=
  ⟨rfl,
    (claim_C3_sources_overwrite
      (fun _ => .ok ⟨none, some [⟨some ⟨some [⟨some ⟨some "https://a.example"⟩⟩,
        ⟨some ⟨none⟩⟩, ⟨some ⟨some "https://b.example"⟩⟩]⟩⟩]⟩)
      (fun _ => .ok [("sources", Json.str "model-made")]) "T" "A"
      ⟨none, some [⟨some ⟨some [⟨some ⟨some "https://a.example"⟩⟩,
        ⟨some ⟨none⟩⟩, ⟨some ⟨some "https://b.example"⟩⟩]⟩⟩]⟩
      [("sources", Json.str "model-made")] rfl rfl).1⟩

/-- C4: every failure — an error from the API call or an error from JSON
deserialization of the recovered candidate — makes
`generateBookInfographic` produce the one fixed failure message; the
underlying error value never reaches the caller, so the two failure kinds
are indistinguishable. -/
theorem claim_C4_error_flattening
    (apiCall : String → Except String ApiResponse)
    (jsonParse : String → Except String JsonObj) (title author : String) :
    (∀ e, apiCall (prompt title author) = .error e →
      generateBookInfographic apiCall jsonParse title author
        = .error genericFailureMessage) ∧
    (∀ response e, apiCall (prompt title author) = .ok response →
      jsonParse (String.mk (cleanJsonOf (effectiveText response).data))
        = .error e →
      generateBookInfographic apiCall jsonParse title author
        = .error genericFailureMessage) := by
  constructor
  · intro e he
    simp [generateBookInfographic, he]
  · intro response e hr hp
    simp [generateBookInfographic, hr, hp]

theorem claim_C4_error_flattening_witness :
    ((fun _ => .error "socket hang up") : String → Except String ApiResponse)
        (prompt "T" "A") = .error "socket hang up" ∧
    generateBookInfographic (fun _ => .error "socket hang up")
      (fun _ => .ok []) "T" "A" = .error genericFailureMessage :=
  ⟨rfl,
    (claim_C4_error_flattening (fun _ => .error "socket hang up")
      (fun _ => .ok []) "T" "A").1 "socket hang up" rfl⟩

/-- C9: every document returned successfully by `generateBookInfographic`
has a defined `sources` field holding an array of strings — even when the
parsed JSON had no `sources` — while no other field is guaranteed: there
is a successful run whose returned document has no `title` field. -/
theorem claim_C9_sources_always_defined :
    (∀ (apiCall : String → Except String ApiResponse)
        (jsonParse : String → Except String JsonObj) (title author : String)
        (data : JsonObj),
      generateBookInfographic apiCall jsonParse title author = .ok data →
      ∃ uris : List String,
        getField data "sources" = some (Json.arr (uris.map Json.str))) ∧
    (∃ (apiCall : String → Except String ApiResponse)
        (jsonParse : String → Except String JsonObj) (title author : String)
        (data : JsonObj),
      generateBookInfographic apiCall jsonParse title author = .ok data ∧
      getField data "title" = none) := by
  constructor
  · intro apiCall jsonParse title author data h
    unfold generateBookInfographic at h
    cases hr : apiCall (prompt title author) with
    | error e =>
      rw [hr] at h
      simp at h
    | ok response =>
      rw [hr] at h
      cases hp : jsonParse
          (String.mk (cleanJsonOf (effectiveText response).data)) with
      | error e =>
        simp only [hp] at h
        simp at h
      | ok d =>
        simp only [hp, Except.ok.injEq] at h
        exact ⟨sourcesOf response, h ▸ getField_setField d _ _⟩
  · exact ⟨fun _ => .ok ⟨none, none⟩, fun _ => .ok [], "T", "A",
      [("sources", Json.arr [])], rfl, rfl⟩

theorem claim_C9_sources_always_defined_witness :
    ∃ uris : List String,
      getField [("sources", Json.arr [])] "sources"
        = some (Json.arr (uris.map Json.str)) :=
  claim_C9_sources_always_defined.1 (fun _ => .ok ⟨none, none⟩)
    (fun _ => .ok []) "T" "A" [("sources", Json.arr [])] rfl

/-- C10: when the API response's text is absent or empty,
`generateBookInfographic` substitutes the literal two-character
brace-pair string before recovery; recovery then hands exactly that
string to the deserializer (which, behaving as `JSON.parse` does on it,
yields the empty object), so the call succeeds and returns a document
whose only field is the attached `sources` array. -/
theorem claim_C10_empty_text_defaults
    (apiCall : String → Except String ApiResponse)
    (jsonParse : String → Except String JsonObj) (title author : String)
    (response : ApiResponse)
    (hr : apiCall (prompt title author) = .ok response)
    (htext : response.text = none ∨ response.text = some "")
    (hparse : jsonParse "\x7b\x7d" = .ok []) :
    effectiveText response = "\x7b\x7d" ∧
    generateBookInfographic apiCall jsonParse title author =
      .ok [("sources", Json.arr ((sourcesOf response).map Json.str))] := by
  have heff : effectiveText response = "\x7b\x7d" := by
    rcases htext with h | h <;> simp [effectiveText, h, String.isEmpty]
  refine ⟨heff, ?_⟩
  have hclean : String.mk (cleanJsonOf (effectiveText response).data)
      = "\x7b\x7d" := by
    rw [heff]
    rfl
  have hp : jsonParse (String.mk (cleanJsonOf (effectiveText response).data))
      = .ok [] := by
    rw [hclean, hparse]
  simp [generateBookInfographic, hr, hp, setField]

theorem claim_C10_empty_text_defaults_witness :
    ((fun _ => .ok (⟨none, none⟩ : ApiResponse)) :
        String → Except String ApiResponse) (prompt "T" "A")
      = .ok ⟨none, none⟩ ∧
    ((⟨none, none⟩ : ApiResponse).text = none ∨
      (⟨none, none⟩ : ApiResponse).text = some "") ∧
    ((fun _ => .ok ([] : JsonObj)) : String → Except String JsonObj) "\x7b\x7d"
      = .ok [] ∧
    generateBookInfographic (fun _ => .ok ⟨none, none⟩) (fun _ => .ok [])
      "T" "A" = .ok [("sources", Json.arr [])] :=
  ⟨rfl, Or.inl rfl, rfl,
    (claim_C10_empty_text_defaults (fun _ => .ok ⟨none, none⟩)
      (fun _ => .ok []) "T" "A" ⟨none, none⟩ rfl (Or.inl rfl) rfl).2⟩

end Book2Slide

namespace Book2Slide

/-- C8: for every document, the exported PDF's filename is the document's
title with every maximal run of whitespace replaced by a single
underscore, followed by the fixed suffix: the filename is built from the
code's whitespace-collapsing pass, that pass satisfies the specification's
maximal-run description (`Collapses`), and the description determines the
collapsed string uniquely. -/
theorem claim_C8_pdf_filename (title : String) :
    pdfFilename title
      = String.mk (collapseWs title.data) ++ "_Presentation.pdf" ∧
    Collapses title.data (collapseWs title.data) ∧
    (∀ r, Collapses title.data r → r = collapseWs title.data) :=
  ⟨rfl, collapses_collapseWs title.data,
    fun _ hr => collapses_unique hr⟩

theorem claim_C8_pdf_filename_witness :
    Collapses "War and  Peace".data
      ['W', 'a', 'r', '_', 'a', 'n', 'd', '_', 'P', 'e', 'a', 'c', 'e'] ∧
    ['W', 'a', 'r', '_', 'a', 'n', 'd', '_', 'P', 'e', 'a', 'c', 'e']
      = collapseWs "War and  Peace".data ∧
    pdfFilename "War and  Peace" = "War_and_Peace_Presentation.pdf" := by
  have hmax1 : ∀ d ds,
      (['a', 'n', 'd', ' ', ' ', 'P', 'e', 'a', 'c', 'e'] : List Char)
        = d :: ds → isJsWs d = false := by
    intro d ds h
    rw [List.cons.injEq] at h
    rw [← h.1]
    decide
  have hmax2 : ∀ d ds, (['P', 'e', 'a', 'c', 'e'] : List Char) = d :: ds →
      isJsWs d = false := by
    intro d ds h
    rw [List.cons.injEq] at h
    rw [← h.1]
    decide
  have hder : Collapses "War and  Peace".data
      ['W', 'a', 'r', '_', 'a', 'n', 'd', '_', 'P', 'e', 'a', 'c', 'e'] := by
    show Collapses
      ['W', 'a', 'r', ' ', 'a', 'n', 'd', ' ', ' ', 'P', 'e', 'a', 'c', 'e']
      ['W', 'a', 'r', '_', 'a', 'n', 'd', '_', 'P', 'e', 'a', 'c', 'e']
    refine Collapses.consKeep (by decide)
      (Collapses.consKeep (by decide) (Collapses.consKeep (by decide) ?_))
    have h1 : Collapses ['P', 'e', 'a', 'c', 'e'] ['P', 'e', 'a', 'c', 'e'] :=
      Collapses.consKeep (by decide) (Collapses.consKeep (by decide)
        (Collapses.consKeep (by decide) (Collapses.consKeep (by decide)
          (Collapses.consKeep (by decide) Collapses.nil))))
    have h2 : Collapses (([' ', ' '] : List Char) ++ ['P', 'e', 'a', 'c', 'e'])
        ('_' :: ['P', 'e', 'a', 'c', 'e']) :=
      Collapses.consRun (by decide) (by decide) hmax2 h1
    have h3 : Collapses ['a', 'n', 'd', ' ', ' ', 'P', 'e', 'a', 'c', 'e']
        ['a', 'n', 'd', '_', 'P', 'e', 'a', 'c', 'e'] :=
      Collapses.consKeep (by decide) (Collapses.consKeep (by decide)
        (Collapses.consKeep (by decide) h2))
    exact Collapses.consRun ((by decide) : ([' '] : List Char) ≠ [])
      (by decide) hmax1 h3
  refine ⟨hder, (claim_C8_pdf_filename "War and  Peace").2.2 _ hder, ?_⟩
  decide

end Book2Slide
